import Mathlib

/-!
Verification of the layout/geometry and markup-generation core of
`src/script.py` (spreadsheet → SVG/HTML batch report generator).

The shallow embedding below translates the Python source into Lean:

* `parse_tuple_string` models `ast.literal_eval` wrapped in
  `try/except (ValueError, SyntaxError)` (script.py lines 13-17), restricted
  to the grammar of integer literals and (possibly nested) tuple literals of
  such values — the grammar of the coordinate cells the script consumes.
  Other Python literal forms (strings, floats, lists, ...) are outside the
  modelled grammar and are mapped to `none`; no claim depends on them.
* `parse_font_size` models `int(x)` wrapped in
  `try/except (ValueError, TypeError)` (lines 20-24), for string cells
  (underscore digit separators are not modelled).
* `textwrap_wrap` models `textwrap.fill(label, width=20)` with the library's
  default options (`break_long_words=True`, `drop_whitespace=True`,
  `break_on_hyphens=True`), for label text containing no tab and no hyphen
  characters; the wrapped text is represented by its list of lines (the
  source joins them with a newline and the caller immediately re-splits).
* `get_centered_position` models lines 27-44.  Python's float arithmetic on
  `font_size * 0.6` is idealized over `ℚ` (the literal `0.6` denotes `3/5`);
  Python's `//` on ints and floats is floor division, embedded as `Int.fdiv`
  and `Int.floor`.
* `generate_offsets` models lines 47-54, with IEEE doubles idealized as `ℝ`
  and `math.cos` / `math.sin` as `Real.cos` / `Real.sin`.
* `processRect` / `renderRects` model the rectangle loop of `main`
  (lines 109-145); `processPoint` and friends model the circle-drawing loop
  (lines 166-222).  Paths on which Python would raise (indexing or unpacking
  an unexpected literal shape) are embedded as `Except.error`; the hex→rgb
  colour string conversion (line 174) is carried opaquely, since no claim
  touches it.
* `text_element_string` / `marker_text_element` model the f-string markup
  construction of lines 139-144 and line 221 at the string level, with the
  numeric attribute slots supplied pre-rendered.
-/

/-- A Python literal value, restricted to the integer/tuple grammar of the
coordinate cells consumed by the script. -/
inductive PyLit where
  | int (n : Int)
  | tuple (elems : List PyLit)

/-- Python whitespace accepted around literals and by `int()`. -/
def isPySpace (c : Char) : Bool :=
  c == ' ' || c == '\t' || c == '\n' || c == '\r' ||
  c == Char.ofNat 11 || c == Char.ofNat 12

/-- Drop leading Python whitespace. -/
def skipWsL : List Char → List Char
  | [] => []
  | c :: cs => if isPySpace c then skipWsL cs else c :: cs

/-- Leading decimal digits and the remainder. -/
def takeDigits (l : List Char) : List Char × List Char :=
  (l.takeWhile Char.isDigit, l.dropWhile Char.isDigit)

/-- Value of a digit string. -/
def natOfDigits (ds : List Char) : Nat :=
  ds.foldl (fun a c => a * 10 + (c.toNat - 48)) 0

/-- Parse one or more digits into a `Nat`, returning the remainder. -/
def parseNat (l : List Char) : Option (Nat × List Char) :=
  let p := takeDigits l
  if p.1.isEmpty then none else some (natOfDigits p.1, p.2)

mutual

/-- One literal value: an optionally signed integer (`ast.literal_eval`
accepts whitespace between a unary sign and the number) or a parenthesized
expression.  Fuel-indexed recursive descent; the fuel passed by
`parse_tuple_string` is an upper bound on the recursion depth. -/
def parseVal : Nat → List Char → Option (PyLit × List Char)
  | 0, _ => none
  | fuel + 1, l =>
    match l with
    | '(' :: r => parseParen fuel (skipWsL r)
    | '-' :: r => (parseNat (skipWsL r)).map fun p => (PyLit.int (-(p.1 : Int)), p.2)
    | '+' :: r => (parseNat (skipWsL r)).map fun p => (PyLit.int (p.1 : Int), p.2)
    | _ => (parseNat l).map fun p => (PyLit.int (p.1 : Int), p.2)

/-- Just after an opening parenthesis (leading whitespace skipped): either
the empty tuple `()` or a first item followed by `parseParenTail`. -/
def parseParen : Nat → List Char → Option (PyLit × List Char)
  | 0, _ => none
  | fuel + 1, l =>
    match l with
    | ')' :: r => some (PyLit.tuple [], r)
    | _ =>
      match parseVal fuel l with
      | none => none
      | some (v, r) => parseParenTail fuel v [] false (skipWsL r)

/-- Inside parentheses after at least one item, expecting `)` or `,`.
`(v)` is the value itself; a comma makes it a tuple, with a trailing comma
allowed, exactly as in Python. -/
def parseParenTail : Nat → PyLit → List PyLit → Bool → List Char →
    Option (PyLit × List Char)
  | 0, _, _, _, _ => none
  | fuel + 1, first, moreRev, sawComma, l =>
    match l with
    | ')' :: r =>
      some (if sawComma then PyLit.tuple (first :: moreRev.reverse) else first, r)
    | ',' :: r =>
      match skipWsL r with
      | ')' :: r2 => some (PyLit.tuple (first :: moreRev.reverse), r2)
      | r1 =>
        match parseVal fuel r1 with
        | none => none
        | some (v, r2) => parseParenTail fuel first (v :: moreRev) true (skipWsL r2)
    | _ => none

end

/-- Top-level comma-separated tuple without parentheses (Python parses
`1,2,3` as a tuple expression); `accRev` holds the items seen so far,
reversed.  A trailing comma is allowed. -/
def parseTupleTop : Nat → List PyLit → List Char → Option PyLit
  | 0, _, _ => none
  | fuel + 1, accRev, l =>
    match l with
    | [] => some (PyLit.tuple accRev.reverse)
    | _ =>
      match parseVal fuel l with
      | none => none
      | some (v, r) =>
        match skipWsL r with
        | [] => some (PyLit.tuple (v :: accRev).reverse)
        | ',' :: r2 => parseTupleTop fuel (v :: accRev) (skipWsL r2)
        | _ => none

/-- script.py lines 13-17: `ast.literal_eval(tuple_string)` under
`try/except (ValueError, SyntaxError): return None`.  Malformed or
non-literal input yields `none`; the function never raises. -/
def parse_tuple_string (s : String) : Option PyLit :=
  let fuel := 2 * s.length + 2
  let l := skipWsL s.toList
  match parseVal fuel l with
  | none => none
  | some (v, r) =>
    match skipWsL r with
    | [] => some v
    | ',' :: r2 => parseTupleTop fuel [v] (skipWsL r2)
    | _ => none

/-- Python `int(s)` on a string: surrounding whitespace stripped, one
optional sign directly followed by digits (no inner whitespace). -/
def pyIntOfString (s : String) : Option Int :=
  let l := skipWsL s.toList
  let p : Int × List Char :=
    match l with
    | '-' :: r => (-1, r)
    | '+' :: r => (1, r)
    | _ => (1, l)
  match parseNat p.2 with
  | none => none
  | some (n, r) => if (skipWsL r).isEmpty then some (p.1 * n) else none

/-- script.py lines 20-24: `int(font_size)` under
`try/except (ValueError, TypeError): return None`; an absent cell (`None`
in Python) hits the `TypeError` branch. -/
def parse_font_size : Option String → Option Int
  | none => none
  | some s => pyIntOfString s

/-- script.py lines 116-117: `if not font_size: font_size = 40`.  Python
truthiness on an optional int: `None` and `0` are falsy, every other value
(including negative ints) is truthy and kept. -/
def effective_font_size (fs : Option Int) : Int :=
  match fs with
  | none => 40
  | some v => if v = 0 then 40 else v

/-- `textwrap`'s `_munge_whitespace` for tab-free text: every whitespace
character is replaced by a plain space (`replace_whitespace=True`). -/
def mungeWs (l : List Char) : List Char :=
  l.map fun c => if isPySpace c then ' ' else c

/-- Worker for `chunkify`: `isSp` is the class (space or not) of the run
being accumulated and `cur` holds that run reversed. -/
def chunkifyGo (isSp : Bool) (cur : List Char) : List Char → List (List Char)
  | [] => [cur.reverse]
  | c :: cs =>
    if (c == ' ') == isSp then chunkifyGo isSp (c :: cur) cs
    else cur.reverse :: chunkifyGo (c == ' ') [c] cs

/-- Split text into the chunks of `textwrap`'s word separator for
hyphen-free text: maximal runs of spaces alternate with maximal runs of
non-spaces. -/
def chunkify : List Char → List (List Char)
  | [] => []
  | c :: cs => chunkifyGo (c == ' ') [c] cs

/-- A chunk consisting only of spaces (Python `chunk.strip() == ''`). -/
def isWsChunk (c : List Char) : Bool := c.all fun ch => ch == ' '

/-- Total character count of a line held as chunks. -/
def sumLen (l : List (List Char)) : Nat := (l.map List.length).sum

/-- The greedy inner loop of `textwrap._wrap_chunks`: starting from
`curLen` characters already on the line, move whole chunks onto the line
while the running length stays within width 20. Returns the chunks taken
and the chunks left. -/
def takeLine (curLen : Nat) : List (List Char) → List (List Char) × List (List Char)
  | [] => ([], [])
  | c :: cs =>
    if curLen + c.length ≤ 20 then
      let p := takeLine (curLen + c.length) cs
      (c :: p.1, p.2)
    else ([], c :: cs)

/-- `textwrap._handle_long_word` with `break_long_words=True` and no
hyphens in the chunk: when the next chunk is longer than the width, fill
the remaining space on the current line with its head and leave its tail
as the next chunk. -/
def handleLong (line0 rest : List (List Char)) :
    List (List Char) × List (List Char) :=
  match rest with
  | [] => (line0, [])
  | d :: ds =>
    if 20 < d.length then
      let spaceLeft := 20 - sumLen line0
      (line0 ++ [d.take spaceLeft], d.drop spaceLeft :: ds)
    else (line0, d :: ds)

/-- `drop_whitespace=True` at the end of a line: delete the trailing chunk
when it is all-whitespace. -/
def dropTrailingWs (line : List (List Char)) : List (List Char) :=
  match line.getLast? with
  | some c => if isWsChunk c then line.dropLast else line
  | none => line

/-- The outer loop of `textwrap._wrap_chunks` (width 20, `max_lines=None`):
one iteration per emitted line.  `emitted` records whether any line has
been produced yet — `drop_whitespace` removes a leading whitespace chunk
only after the first line (Python's `and lines` condition).  The fuel
passed by `textwrap_wrap` strictly exceeds the number of iterations, which
is bounded by the chunk count plus the total character count since every
iteration drops a chunk or shortens an over-long one. -/
def wrapStep : Nat → Bool → List (List Char) → List (List Char)
  | 0, _, _ => []
  | _ + 1, _, [] => []
  | fuel + 1, emitted, c :: cs =>
    let chunks1 := if emitted && isWsChunk c then cs else c :: cs
    let p := takeLine 0 chunks1
    let q := handleLong p.1 p.2
    let line := dropTrailingWs q.1
    if line.isEmpty then wrapStep fuel emitted q.2
    else line.flatten :: wrapStep fuel true q.2

/-- script.py line 34: `textwrap.fill(label, width=max_line_length)` with
`max_line_length = 20`, represented by its list of lines (the source joins
the lines with a newline and the caller re-splits them). -/
def textwrap_wrap (s : String) : List String :=
  let chunks := chunkify (mungeWs s.toList)
  (wrapStep (sumLen chunks + chunks.length + 1) false chunks).map fun l => String.mk l

/-- Longest line length, Python `max([len(line) for line in lines])` for a
nonempty list of lines. -/
def maxLineLen (lines : List String) : Nat :=
  (lines.map String.length).foldr Nat.max 0

/-- script.py lines 27-44 (`get_centered_position`): box center by integer
floor division, wrapped label lines, estimated text block size with the
0.6 average-character-width heuristic, and the anchor so the block is
centered.  Python's `//` is `Int.fdiv` on ints and `Int.floor` on the
float (here: rational) text width; an empty label wraps to the single
empty line, as `"".split('\n')` yields `['']`. -/
def get_centered_position (x0 y0 x1 y1 : ℤ) (label : String) (font_size : ℤ) :
    ℚ × ℤ × List String :=
  let center_x := Int.fdiv (x0 + x1) 2
  let center_y := Int.fdiv (y0 + y1) 2
  let average_char_width : ℚ := (font_size : ℚ) * 0.6
  let lines := let w := textwrap_wrap label; if w.isEmpty then [""] else w
  let text_height := font_size * lines.length
  let text_width : ℚ := (maxLineLen lines : ℚ) * average_char_width
  let text_x : ℚ := (center_x : ℚ) - (⌊text_width / 2⌋ : ℤ)
  let text_y : ℤ := center_y - Int.fdiv text_height 2
  (text_x, text_y, lines)

/-- The axis-aligned bounding box of script.py lines 121-124: componentwise
minima and maxima over the two diagonal corners. -/
structure Box where
  x0 : ℤ
  y0 : ℤ
  x1 : ℤ
  y1 : ℤ

/-- script.py lines 121-124: `x0 = min(corner1[0], corner3[0])`, etc. -/
def deriveBox (corner1 corner3 : ℤ × ℤ) : Box :=
  { x0 := min corner1.1 corner3.1
    y0 := min corner1.2 corner3.2
    x1 := max corner1.1 corner3.1
    y1 := max corner1.2 corner3.2 }

/-- Python truthiness of a parsed literal: `0` and the empty tuple are
falsy, everything else is truthy. -/
def pyLitTruthy : PyLit → Bool
  | .int n => n != 0
  | .tuple l => !l.isEmpty

/-- Python truthiness of an optional parsed cell (`None` is falsy). -/
def pyTruthy : Option PyLit → Bool
  | none => false
  | some v => pyLitTruthy v

/-- `corner[0]` and `corner[1]` as ints, as used by lines 121-124.  A tuple
with at least two leading int elements indexes fine (extra elements are
ignored, as in Python); any other shape is a path on which Python raises
(`TypeError` on indexing an int, `IndexError` on a short tuple, or the
`min`/`max` comparison failing on a non-int element). -/
def litPairInts : PyLit → Except String (Int × Int)
  | .tuple (.int x :: .int y :: _) => .ok (x, y)
  | .tuple (_ :: _ :: _) => .error "TypeError: unorderable element"
  | .tuple _ => .error "IndexError: tuple index out of range"
  | .int _ => .error "TypeError: int is not subscriptable"

/-- One SVG element of the rectangle loop, with the geometry the f-strings
of lines 130 and 139-144 interpolate. -/
inductive SvgElement where
  | rect (x y width height : ℤ)
  | text (x : ℚ) (y : ℤ) (font_size : ℤ) (lines : List String)

/-- One row of the `position` worksheet after the per-column `apply` of
lines 79-82: corners through `parse_tuple_string`, `font_size` through
`parse_font_size`.  Corner positions 2 and 4 are parsed but never read. -/
structure RectRow where
  label : String
  corner1 : Option PyLit
  corner3 : Option PyLit
  font_size : Option Int

/-- One iteration of the rectangle loop (script.py lines 109-145): when
both corners are truthy, emit the rectangle outline and the centered,
wrapped label (`<text>` y attribute is `text_y + font_size`); otherwise
emit nothing. -/
def processRect (row : RectRow) : Except String (List SvgElement) :=
  match row.corner1, row.corner3 with
  | some l1, some l3 =>
    if pyLitTruthy l1 && pyLitTruthy l3 then do
      let c1 ← litPairInts l1
      let c3 ← litPairInts l3
      let box := deriveBox c1 c3
      let width := box.x1 - box.x0
      let height := box.y1 - box.y0
      let fs := effective_font_size row.font_size
      let g := get_centered_position box.x0 box.y0 box.x1 box.y1 row.label fs
      .ok [SvgElement.rect box.x0 box.y0 width height,
           SvgElement.text g.1 (g.2.1 + fs) fs g.2.2]
    else .ok []
  | _, _ => .ok []

/-- The whole rectangle loop: rows in order, elements accumulated; an
uncaught exception in any row aborts the run (top-level abort, §6 of the
behaviour).  The source's accumulator loop is written as structural
recursion; the element order and the first-error behaviour coincide. -/
def renderRects : List RectRow → Except String (List SvgElement)
  | [] => .ok []
  | r :: rs => do
    let es ← processRect r
    let rest ← renderRects rs
    .ok (es ++ rest)

/-- script.py lines 47-54 (`generate_offsets`): for each `i < num_points`
the angle `2·π·i/num_points` and the displacement
`(radius·2·cos angle, radius·2·sin angle)`.  IEEE doubles are idealized as
real numbers. -/
noncomputable def generate_offsets (num_points : ℕ) (radius : ℝ) : List (ℝ × ℝ) :=
  (List.range num_points).map fun (i : ℕ) =>
    (radius * 2 * Real.cos (2 * Real.pi * (i : ℝ) / (num_points : ℝ)),
     radius * 2 * Real.sin (2 * Real.pi * (i : ℝ) / (num_points : ℝ)))

/-- One row of the `Profiles` worksheet (lines 169-180).  `color` carries
the `rgb(r, g, b)` string produced from the hex cell by line 174-175; the
conversion is a pure string transformation no claim depends on, so it is
carried opaquely. -/
structure Profile where
  id : String
  color : String
  name : String

/-- Line 180: the ordered list of profile identifiers. -/
def profiles_list (rows : List Profile) : List String :=
  rows.map Profile.id

/-- Lines 167-180: `profiles_mapping.get(p)` — a Python dict built by
insertion in row order, so for a duplicated id the last row wins; on a
missing key `get` returns `None`. -/
def profiles_mapping (rows : List Profile) (p : String) : Option (String × String) :=
  (rows.reverse.find? fun r => r.id == p).map fun r => (r.color, r.name)

/-- Lines 186-190: the offsets dict built by zipping the profile list with
`generate_offsets(len(profiles_list), circle_radius)` where
`circle_radius = 10`; `offsets.get(p, (0, 0))` falls back to zero offset. -/
noncomputable def offsets_get (rows : List Profile) (p : String) : ℝ × ℝ :=
  ((((profiles_list rows).zip (generate_offsets rows.length 10)).reverse.find?
    fun q => q.1 == p).map fun q => q.2).getD (0, 0)

/-- One SVG element of the circle-drawing loop: a filled+stroked circle
(line 210) or a profile-name text of font size 20 (line 221). -/
inductive MarkerElement where
  | circle (cx cy r : ℝ) (fill stroke : String)
  | nameText (x y : ℝ) (font_size : ℤ) (fill content : String)

/-- The inner loop of lines 198-222 for one point with unpacked coordinates
`(x, y)`: for each profile in source order whose flag cell equals exactly
`1`, one circle of radius 10 centered at the point plus the profile's
offset, and the profile name at `x + radius + 5`, `y + 20/2`. -/
noncomputable def processPointMarkers (rows : List Profile) (flags : String → Int)
    (x y : ℤ) : List MarkerElement :=
  (profiles_list rows).flatMap fun p =>
    if flags p = 1 then
      match profiles_mapping rows p with
      | some info =>
        let off := offsets_get rows p
        let x_adj : ℝ := (x : ℝ) + off.1
        let y_adj : ℝ := (y : ℝ) + off.2
        [MarkerElement.circle x_adj y_adj 10 info.1 info.1,
         MarkerElement.nameText (x_adj + 10 + 5) (y_adj + 20 / 2) 20 "black" info.2]
      | none => []
    else []

/-- Lines 193-222 for one row of the `points` worksheet: a falsy position
(absent, `0`, or the empty tuple) is skipped; a truthy two-int tuple is
unpacked and drawn; any other truthy literal is a path on which Python's
`x, y = position` unpacking (or the later addition) raises. -/
noncomputable def processPoint (rows : List Profile) (flags : String → Int) :
    Option PyLit → Except String (List MarkerElement)
  | none => .ok []
  | some (.int n) =>
    if n = 0 then .ok [] else .error "TypeError: cannot unpack int"
  | some (.tuple [.int x, .int y]) => .ok (processPointMarkers rows flags x y)
  | some (.tuple l) =>
    if l.isEmpty then .ok [] else .error "ValueError: cannot unpack"

/-- The specification's reading of the marker loop (§4.3 and §8.6 of the
spec): walk the profile rows zipped positionally with the radial offset
table and emit one circle/name pair per profile whose flag is exactly 1.
Stated from the spec's words, to be compared with `processPointMarkers`,
which is translated from the source's dict lookups. -/
noncomputable def pointMarkersSpec (rows : List Profile) (flags : String → Int)
    (x y : ℤ) : List MarkerElement :=
  (rows.zip (generate_offsets rows.length 10)).flatMap fun q =>
    if flags q.1.id = 1 then
      [MarkerElement.circle ((x : ℝ) + q.2.1) ((y : ℝ) + q.2.2) 10 q.1.color q.1.color,
       MarkerElement.nameText ((x : ℝ) + q.2.1 + 10 + 5) ((y : ℝ) + q.2.2 + 20 / 2) 20
         "black" q.1.name]
    else []

/-- script.py lines 139-144 at the string level: the `<text>` opening tag
f-string, one `<tspan>` per wrapped line with `dy` equal to `0` for the
first line and to the font size afterwards, then the closing tag.  The
numeric slots (`text_x`, `text_y + font_size`, `font_size`) are supplied
pre-rendered; each line's text is interpolated verbatim. -/
def tspans (xs fss dy : String) : List String → String
  | [] => ""
  | l :: ls =>
    "<tspan x=\"" ++ xs ++ "\" dy=\"" ++ dy ++ "\">" ++ l ++ "</tspan>" ++
      tspans xs fss fss ls

/-- The complete `<text>` element of lines 139-144. -/
def text_element_string (xs ys fss : String) (lines : List String) : String :=
  "<text x=\"" ++ xs ++ "\" y=\"" ++ ys ++ "\" font-size=\"" ++ fss ++
    "\" fill=\"black\">" ++ tspans xs fss "0" lines ++ "</text>"

/-- script.py line 221 at the string level: the marker-name `<text>`
element with `label_font_size = 20`; the profile name is interpolated
verbatim. -/
def marker_text_element (xs ys name : String) : String :=
  "<text x=\"" ++ xs ++ "\" y=\"" ++ ys ++ "\" font-size=\"20\" fill=\"black\">" ++
    name ++ "</text>"

/-- C1: the coordinate-pair parser as the claim states it — every input
yields a two-element integer pair or absent — is refuted at the wrong-arity
input "1,2,3": `ast.literal_eval` parses it as a valid three-element tuple
expression and `parse_tuple_string` returns it rather than absent. -/
theorem c1_counterexample :
    ¬ (∀ s : String, parse_tuple_string s = none ∨
        ∃ a b : Int, parse_tuple_string s = some (PyLit.tuple [PyLit.int a, PyLit.int b])) := by
  intro h
  have e : parse_tuple_string "1,2,3" =
      some (PyLit.tuple [PyLit.int 1, PyLit.int 2, PyLit.int 3]) := rfl
  rcases h "1,2,3" with h1 | ⟨a, b, h2⟩
  · rw [e] at h1
    exact Option.noConfusion h1
  · rw [e] at h2
    simp at h2

/-- C1 (amended): `parse_tuple_string` returns the parsed literal or
absent, never raising.  Unparseable syntax ("(1,2") and non-literal input
("abc") yield absent; a well-formed two-integer tuple text parses to that
pair; but wrong-arity tuple text such as "1,2,3" parses successfully to a
tuple of that arity instead of absent, so the result is not always a
two-element pair. -/
theorem c1_amended :
    parse_tuple_string "(2103, 167)" = some (PyLit.tuple [PyLit.int 2103, PyLit.int 167]) ∧
    parse_tuple_string "(1,2" = none ∧
    parse_tuple_string "abc" = none ∧
    parse_tuple_string "1,2,3" = some (PyLit.tuple [PyLit.int 1, PyLit.int 2, PyLit.int 3]) :=
  ⟨rfl, rfl, rfl, rfl⟩

/-- C5: the claim that a negative font-size cell falls back to the default
40 is refuted at "-5": Python parses it to `-5`, which is truthy, so the
fallback of lines 116-117 is not applied and the label keeps font size -5. -/
theorem c5_counterexample :
    parse_font_size (some "-5") = some (-5) ∧
    effective_font_size (parse_font_size (some "-5")) = -5 ∧
    (-5 : ℤ) ≠ 40 := by
  refine ⟨rfl, rfl, by decide⟩

/-- C5 (amended): an absent or non-numeric font-size cell (parse gives
absent) and a zero value fall back to the fixed default 40; any nonzero
parsed value — negative values included — is kept as-is. -/
theorem c5_amended (cell : Option String) :
    (parse_font_size cell = none →
      effective_font_size (parse_font_size cell) = 40) ∧
    (parse_font_size cell = some 0 →
      effective_font_size (parse_font_size cell) = 40) ∧
    (∀ v : ℤ, parse_font_size cell = some v → v ≠ 0 →
      effective_font_size (parse_font_size cell) = v) := by
  refine ⟨fun h => ?_, fun h => ?_, fun v h hv => ?_⟩
  · rw [h]; rfl
  · rw [h]; rfl
  · rw [h]; simp [effective_font_size, hv]

/-- C5 (amended) at a concrete input: the cell "0" parses to zero and the
rendered font size is the default 40. -/
theorem c5_amended_witness :
    parse_font_size (some "0") = some 0 ∧
    effective_font_size (parse_font_size (some "0")) = 40 :=
  ⟨rfl, (c5_amended (some "0")).2.1 rfl⟩

/-- C6: the bounding box derived from any two diagonal corner pairs is
normalized — `x0 ≤ x1` and `y0 ≤ y1` — and does not depend on which corner
was given first. -/
theorem c6_box_normalized (a b : ℤ × ℤ) :
    (deriveBox a b).x0 ≤ (deriveBox a b).x1 ∧
    (deriveBox a b).y0 ≤ (deriveBox a b).y1 ∧
    deriveBox a b = deriveBox b a := by
  refine ⟨min_le_max, min_le_max, ?_⟩
  simp [deriveBox, min_comm, max_comm]

set_option maxRecDepth 8192 in
/-- C9: the markup emitter interpolates label and profile-name text
verbatim — a name containing `&` and a label line containing `<` appear
raw in the emitted element, with no `&amp;`/`&lt;` escape anywhere, so the
claimed escaping does not happen in this code. -/
theorem c9_unescaped_eval :
    marker_text_element "0" "0" "R&D" =
      "<text x=\"0\" y=\"0\" font-size=\"20\" fill=\"black\">R&D</text>" ∧
    text_element_string "0" "0" "40" ["a<b"] =
      "<text x=\"0\" y=\"0\" font-size=\"40\" fill=\"black\"><tspan x=\"0\" dy=\"0\">a<b</tspan></text>" ∧
    "R&D".toList <:+: (marker_text_element "0" "0" "R&D").toList ∧
    ¬ ("&amp;".toList <:+: (marker_text_element "0" "0" "R&D").toList) ∧
    "a<b".toList <:+: (text_element_string "0" "0" "40" ["a<b"]).toList ∧
    ¬ ("&lt;".toList <:+: (text_element_string "0" "0" "40" ["a<b"]).toList) := by
  refine ⟨rfl, rfl, ?_, ?_, ?_, ?_⟩ <;> decide

/-- Skipping a row that contributes no elements leaves the rest of the run
unchanged. -/
theorem renderRects_skip (row : RectRow) (pre post : List RectRow)
    (hrow : processRect row = .ok []) :
    renderRects (pre ++ row :: post) = renderRects (pre ++ post) := by
  induction pre with
  | nil =>
    simp only [List.nil_append, renderRects, hrow]
    cases renderRects post <;> rfl
  | cons head tail ih =>
    simp only [List.cons_append, renderRects, List.append_eq]
    rw [ih]

/-- C4: a rectangle record with either diagonal corner unparseable emits no
rectangle and no text element, and the run is not aborted — removing the
record from the row list leaves the emitted document unchanged, so all
other records are still processed. -/
theorem c4_skip (row : RectRow) (pre post : List RectRow)
    (h : row.corner1 = none ∨ row.corner3 = none) :
    processRect row = .ok [] ∧
    renderRects (pre ++ row :: post) = renderRects (pre ++ post) := by
  have hrow : processRect row = .ok [] := by
    rcases hc1 : row.corner1 with _ | v1
    · unfold processRect
      rcases hc3 : row.corner3 with _ | v3 <;> rw [hc1]
    · rcases hc3 : row.corner3 with _ | v3
      · unfold processRect
        rw [hc1, hc3]
      · exfalso
        rcases h with h1 | h1
        · rw [hc1] at h1
          exact Option.noConfusion h1
        · rw [hc3] at h1
          exact Option.noConfusion h1
  exact ⟨hrow, renderRects_skip row pre post hrow⟩

/-- C4 at a concrete input: a row with an unparseable first corner is
skipped and a following valid row is still rendered. -/
theorem c4_skip_witness :
    ((⟨"bad", none, some (PyLit.tuple [PyLit.int 3, PyLit.int 4]), none⟩ : RectRow).corner1
        = none ∨
      (⟨"bad", none, some (PyLit.tuple [PyLit.int 3, PyLit.int 4]), none⟩ : RectRow).corner3
        = none) ∧
    processRect ⟨"bad", none, some (PyLit.tuple [PyLit.int 3, PyLit.int 4]), none⟩ = .ok [] ∧
    renderRects [⟨"bad", none, some (PyLit.tuple [PyLit.int 3, PyLit.int 4]), none⟩,
        ⟨"ok", some (PyLit.tuple [PyLit.int 0, PyLit.int 0]),
          some (PyLit.tuple [PyLit.int 8, PyLit.int 6]), some 40⟩] =
      renderRects [⟨"ok", some (PyLit.tuple [PyLit.int 0, PyLit.int 0]),
          some (PyLit.tuple [PyLit.int 8, PyLit.int 6]), some 40⟩] :=
  ⟨Or.inl rfl,
    (c4_skip _ [] [⟨"ok", some (PyLit.tuple [PyLit.int 0, PyLit.int 0]),
        some (PyLit.tuple [PyLit.int 8, PyLit.int 6]), some 40⟩] (Or.inl rfl)).1,
    (c4_skip _ [] [⟨"ok", some (PyLit.tuple [PyLit.int 0, PyLit.int 0]),
        some (PyLit.tuple [PyLit.int 8, PyLit.int 6]), some 40⟩] (Or.inl rfl)).2⟩

/-- The estimated text block width of §4.2: `0.6 · font_size` per
character of the longest wrapped line (the code computes
`max-line-length · (font_size · 0.6)`). -/
def text_block_width (font_size : ℤ) (lines : List String) : ℚ :=
  (maxLineLen lines : ℚ) * ((font_size : ℚ) * 0.6)

/-- The estimated text block height of §4.2: `font_size` per wrapped
line. -/
def text_block_height (font_size : ℤ) (lines : List String) : ℤ :=
  font_size * lines.length

/-- C7: the text anchor equals the box center minus half the estimated
block size under floor division — `text_x = cx − ⌊text_width/2⌋`,
`text_y = cy − text_height // 2` with `text_height = font_size · #lines`
and `text_width = #chars-of-longest-line · (font_size · 0.6)` — and hence
the anchor plus half the block size returns to the box center to within
one unit of floor-division rounding on each axis. -/
theorem c7_centering (x0 y0 x1 y1 font_size : ℤ) (label : String) :
    (get_centered_position x0 y0 x1 y1 label font_size).1 =
      ((Int.fdiv (x0 + x1) 2 : ℤ) : ℚ) -
      ((⌊text_block_width font_size
          (get_centered_position x0 y0 x1 y1 label font_size).2.2 / 2⌋ : ℤ) : ℚ) ∧
    (get_centered_position x0 y0 x1 y1 label font_size).2.1 =
      Int.fdiv (y0 + y1) 2 -
      Int.fdiv (text_block_height font_size
        (get_centered_position x0 y0 x1 y1 label font_size).2.2) 2 ∧
    0 ≤ (get_centered_position x0 y0 x1 y1 label font_size).1 +
      text_block_width font_size
        (get_centered_position x0 y0 x1 y1 label font_size).2.2 / 2 -
      ((Int.fdiv (x0 + x1) 2 : ℤ) : ℚ) ∧
    (get_centered_position x0 y0 x1 y1 label font_size).1 +
      text_block_width font_size
        (get_centered_position x0 y0 x1 y1 label font_size).2.2 / 2 -
      ((Int.fdiv (x0 + x1) 2 : ℤ) : ℚ) < 1 ∧
    0 ≤ (((get_centered_position x0 y0 x1 y1 label font_size).2.1 : ℤ) : ℚ) +
      ((text_block_height font_size
        (get_centered_position x0 y0 x1 y1 label font_size).2.2 : ℤ) : ℚ) / 2 -
      ((Int.fdiv (y0 + y1) 2 : ℤ) : ℚ) ∧
    (((get_centered_position x0 y0 x1 y1 label font_size).2.1 : ℤ) : ℚ) +
      ((text_block_height font_size
        (get_centered_position x0 y0 x1 y1 label font_size).2.2 : ℤ) : ℚ) / 2 -
      ((Int.fdiv (y0 + y1) 2 : ℤ) : ℚ) < 1 := by
  set g := get_centered_position x0 y0 x1 y1 label font_size with hgdef
  set cx := Int.fdiv (x0 + x1) 2 with hcx
  set cy := Int.fdiv (y0 + y1) 2 with hcy
  set tw : ℚ := text_block_width font_size g.2.2 with htw
  set th : ℤ := text_block_height font_size g.2.2 with hth
  have h1 : g.1 = (cx : ℚ) - (⌊tw / 2⌋ : ℤ) := rfl
  have h2 : g.2.1 = cy - Int.fdiv th 2 := rfl
  have hf1 : (⌊tw / 2⌋ : ℚ) ≤ tw / 2 := Int.floor_le _
  have hf2 : tw / 2 < (⌊tw / 2⌋ : ℚ) + 1 := Int.lt_floor_add_one _
  have hd : Int.fdiv th 2 = th / 2 := Int.fdiv_eq_ediv th (by norm_num)
  have hm : (2 : ℤ) * (th / 2) + th % 2 = th := Int.ediv_add_emod th 2
  have hm1 : 0 ≤ th % 2 := Int.emod_nonneg th (by norm_num)
  have hm2 : th % 2 < 2 := Int.emod_lt_of_pos th (by norm_num)
  have hcast : ((cy - th / 2 : ℤ) : ℚ) = (cy : ℚ) - ((th / 2 : ℤ) : ℚ) := by
    push_cast
    ring
  have hq : ((th / 2 : ℤ) : ℚ) * 2 + ((th % 2 : ℤ) : ℚ) = (th : ℚ) := by
    exact_mod_cast congrArg (fun z : ℤ => (z : ℚ)) (by linarith [hm])
  have hq1 : (0 : ℚ) ≤ ((th % 2 : ℤ) : ℚ) := by exact_mod_cast hm1
  have hq2 : ((th % 2 : ℤ) : ℚ) < 2 := by exact_mod_cast hm2
  refine ⟨h1, h2, ?_, ?_, ?_, ?_⟩
  · rw [h1]
    linarith
  · rw [h1]
    linarith
  · rw [h2, hd, hcast]
    linarith
  · rw [h2, hd, hcast]
    linarith

/-- `sumLen` distributes over cons. -/
theorem sumLen_cons (a : List Char) (l : List (List Char)) :
    sumLen (a :: l) = a.length + sumLen l := by
  simp [sumLen]

/-- `sumLen` distributes over append. -/
theorem sumLen_append (l1 l2 : List (List Char)) :
    sumLen (l1 ++ l2) = sumLen l1 + sumLen l2 := by
  simp [sumLen]

/-- The greedy fill loop never exceeds the width: starting from `n ≤ 20`
characters on the line, the chunks it takes keep the total within 20. -/
theorem takeLine_sum_le (l : List (List Char)) :
    ∀ n, n ≤ 20 → n + sumLen (takeLine n l).1 ≤ 20 := by
  induction l with
  | nil =>
    intro n hn
    simpa [takeLine, sumLen] using hn
  | cons c cs ih =>
    intro n hn
    unfold takeLine
    by_cases h : n + c.length ≤ 20
    · simp only [h, if_pos, sumLen_cons]
      have := ih (n + c.length) h
      omega
    · simp only [h, if_neg, not_false_iff]
      simpa [sumLen] using hn

/-- Breaking a long word fills the line to at most the width. -/
theorem handleLong_sum_le (line0 rest : List (List Char))
    (h : sumLen line0 ≤ 20) : sumLen (handleLong line0 rest).1 ≤ 20 := by
  unfold handleLong
  match rest with
  | [] => simpa using h
  | d :: ds =>
    by_cases hd : 20 < d.length
    · simp only [hd, if_pos]
      rw [sumLen_append, sumLen_cons]
      have ht : (d.take (20 - sumLen line0)).length ≤ 20 - sumLen line0 :=
        le_trans (List.length_take _ _).le (min_le_left _ _)
      have hz : sumLen [] = 0 := rfl
      omega
    · simp only [hd, if_neg, not_false_iff]
      exact h

/-- Dropping the last chunk never increases the character count. -/
theorem sumLen_dropLast_le (line : List (List Char)) :
    sumLen line.dropLast ≤ sumLen line := by
  rcases eq_or_ne line [] with rfl | h
  · simp
  · conv_rhs => rw [← List.dropLast_append_getLast h]
    rw [sumLen_append]
    omega

/-- Dropping a trailing whitespace chunk never increases the count. -/
theorem dropTrailingWs_sum_le (line : List (List Char)) :
    sumLen (dropTrailingWs line) ≤ sumLen line := by
  unfold dropTrailingWs
  rcases hl : line.getLast? with _ | c
  · exact le_refl _
  · by_cases hw : isWsChunk c
    · simp only [hw, if_pos]
      exact sumLen_dropLast_le line
    · simp [hw]

/-- Each line assembled by one iteration of the wrap loop holds at most 20
characters: the greedy fill stays within the width, breaking a long word
fills exactly up to it, and dropping trailing whitespace only shrinks it. -/
theorem emittedLine_le (chunks1 : List (List Char)) :
    sumLen (dropTrailingWs (handleLong (takeLine 0 chunks1).1
      (takeLine 0 chunks1).2).1) ≤ 20 := by
  have h0 : sumLen (takeLine 0 chunks1).1 ≤ 20 := by
    have := takeLine_sum_le chunks1 0 (by norm_num)
    omega
  exact le_trans (dropTrailingWs_sum_le _) (handleLong_sum_le _ _ h0)

/-- Every line produced by the wrap loop has at most 20 characters,
whatever the fuel, the emitted flag, and the chunk list. -/
theorem wrapStep_line_length_le :
    ∀ (fuel : Nat) (emitted : Bool) (chunks : List (List Char)) (line : List Char),
      line ∈ wrapStep fuel emitted chunks → line.length ≤ 20 := by
  intro fuel
  induction fuel with
  | zero =>
    intro emitted chunks line h
    simp [wrapStep] at h
  | succ fuel ih =>
    intro emitted chunks line h
    match chunks with
    | [] => simp [wrapStep] at h
    | c :: cs =>
      simp only [wrapStep] at h
      split at h
      all_goals split at h
      all_goals try exact ih _ _ _ h
      all_goals
        rcases List.mem_cons.mp h with rfl | hmem
      all_goals try exact ih _ _ _ hmem
      all_goals rw [List.length_flatten]
      all_goals exact emittedLine_le _

/-- C2 (counterexample part): a single 25-character word is not kept on one
line — `textwrap.fill` with its default `break_long_words=True` splits it
mid-word into a 20-character line and a 5-character line. -/
theorem c2_counterexample :
    textwrap_wrap "aaaaaaaaaaaaaaaaaaaaaaaaa" ≠ ["aaaaaaaaaaaaaaaaaaaaaaaaa"] ∧
    textwrap_wrap "aaaaaaaaaaaaaaaaaaaaaaaaa" = ["aaaaaaaaaaaaaaaaaaaa", "aaaaa"] := by
  refine ⟨by decide, by decide⟩

/-- C2 (amended): the label wrapper produces greedy word-wrapped lines of
at most 20 characters each, breaking at word boundaries when a word fits
on a line; a 20-character space-free label yields one line and two
15-character words yield two lines, one word per line; but a word longer
than 20 characters is broken mid-word into width-filling chunks. -/
theorem c2_amended :
    (∀ (s : String) (line : String), line ∈ textwrap_wrap s → line.length ≤ 20) ∧
    textwrap_wrap "aaaaaaaaaaaaaaaaaaaa" = ["aaaaaaaaaaaaaaaaaaaa"] ∧
    textwrap_wrap "aaaaaaaaaaaaaaa bbbbbbbbbbbbbbb" =
      ["aaaaaaaaaaaaaaa", "bbbbbbbbbbbbbbb"] ∧
    textwrap_wrap "aaaaaaaaaaaaaaaaaaaaaaaaa" = ["aaaaaaaaaaaaaaaaaaaa", "aaaaa"] := by
  refine ⟨?_, by decide, by decide, by decide⟩
  intro s line h
  unfold textwrap_wrap at h
  obtain ⟨l, hl, rfl⟩ := List.mem_map.mp h
  have := wrapStep_line_length_le _ _ _ _ hl
  simpa [String.length] using this

/-- C2 (amended) at a concrete input: the 5-character tail line of the
25-character word is one of the wrapped lines and is within the width. -/
theorem c2_amended_witness :
    "aaaaa" ∈ textwrap_wrap "aaaaaaaaaaaaaaaaaaaaaaaaa" ∧
    ("aaaaa" : String).length ≤ 20 :=
  ⟨by decide, c2_amended.1 "aaaaaaaaaaaaaaaaaaaaaaaaa" "aaaaa" (by decide)⟩

/-- A list of pairs sums componentwise. -/
theorem sum_map_pair (l : List ℕ) (a b : ℕ → ℝ) :
    (l.map fun i => (a i, b i)).sum = ((l.map a).sum, (l.map b).sum) := by
  induction l with
  | nil => simp
  | cons c cs ih => simp [ih, Prod.ext_iff]

/-- The cosines and sines of the `n` equally spaced angles `2·π·i/n` sum to
zero once `n ≥ 2`: they are the real and imaginary parts of the `n`-th
roots of unity, whose geometric sum vanishes. -/
theorem sum_cos_sin_zero (n : ℕ) (hn : 2 ≤ n) :
    (∑ i in Finset.range n, Real.cos (2 * Real.pi * i / n)) = 0 ∧
    (∑ i in Finset.range n, Real.sin (2 * Real.pi * i / n)) = 0 := by
  have hn0 : n ≠ 0 := by omega
  have hprim := Complex.isPrimitiveRoot_exp n hn0
  have hsum : ∑ i in Finset.range n, Complex.exp (2 * Real.pi * Complex.I / n) ^ i = 0 :=
    hprim.geom_sum_eq_zero (by omega)
  have hz : ∀ i ∈ Finset.range n, Complex.exp (2 * Real.pi * Complex.I / n) ^ i =
      Complex.exp (((2 * Real.pi * i / n : ℝ) : ℂ) * Complex.I) := by
    intro i _
    rw [← Complex.exp_nat_mul]
    congr 1
    push_cast
    ring
  rw [Finset.sum_congr rfl hz] at hsum
  constructor
  · have h2 := congrArg Complex.re hsum
    rw [Complex.re_sum] at h2
    simp only [Complex.exp_ofReal_mul_I_re] at h2
    simpa using h2
  · have h2 := congrArg Complex.im hsum
    rw [Complex.im_sum] at h2
    simp only [Complex.exp_ofReal_mul_I_im] at h2
    simpa using h2

/-- C3: as stated for every n ≥ 1 the claim is false — with a single
profile the offset table is `[(2r, 0)]`, whose sum at radius 10 is
`(20, 0)`, not the zero vector (to any tolerance). -/
theorem c3_counterexample : (generate_offsets 1 10).sum ≠ (0, 0) := by
  have h : generate_offsets 1 10 = [(20, 0)] := by
    unfold generate_offsets
    rw [show List.range 1 = [0] from rfl]
    norm_num
  rw [h]
  intro hc
  rw [List.sum_cons, List.sum_nil, add_zero, Prod.ext_iff] at hc
  exact absurd hc.1 (by norm_num)

/-- C3 (amended): `generate_offsets n r` always returns exactly `n`
offsets, the `i`-th being `(2r·cos(2πi/n), 2r·sin(2πi/n))`, and for `n ≥ 2`
the offset vectors sum to exactly zero in the real-number idealization of
the floating-point arithmetic; for `n = 1` the sum is the single offset
`(2r, 0)`.  Determinism is immediate: the embedding is a pure function of
`(n, r)`, matching the source's lack of any randomness. -/
theorem c3_amended (n : ℕ) (r : ℝ) :
    (generate_offsets n r).length = n ∧
    (∀ i : ℕ, i < n → (generate_offsets n r)[i]? =
      some (r * 2 * Real.cos (2 * Real.pi * i / n),
            r * 2 * Real.sin (2 * Real.pi * i / n))) ∧
    (2 ≤ n → (generate_offsets n r).sum = (0, 0)) := by
  refine ⟨?_, ?_, ?_⟩
  · unfold generate_offsets
    rw [List.length_map, List.length_range]
  · intro i h
    unfold generate_offsets
    rw [List.getElem?_map, List.getElem?_range h]
    rfl
  · intro hn
    obtain ⟨hcos, hsin⟩ := sum_cos_sin_zero n hn
    unfold generate_offsets
    rw [sum_map_pair]
    have hc : ((List.range n).map fun (i : ℕ) =>
        r * 2 * Real.cos (2 * Real.pi * (i : ℝ) / n)).sum =
        ∑ i in Finset.range n, r * 2 * Real.cos (2 * Real.pi * i / n) := rfl
    have hs : ((List.range n).map fun (i : ℕ) =>
        r * 2 * Real.sin (2 * Real.pi * (i : ℝ) / n)).sum =
        ∑ i in Finset.range n, r * 2 * Real.sin (2 * Real.pi * i / n) := rfl
    rw [hc, hs, ← Finset.mul_sum, ← Finset.mul_sum, hcos, hsin]
    simp

/-- C3 (amended) at a concrete input: four profiles at radius 1 give four
offsets, the second at angle π/2, and a zero vector sum. -/
theorem c3_amended_witness :
    (generate_offsets 4 1).length = 4 ∧
    (generate_offsets 4 1)[1]? =
      some ((1 : ℝ) * 2 * Real.cos (2 * Real.pi * ((1 : ℕ) : ℝ) / ((4 : ℕ) : ℝ)),
            (1 : ℝ) * 2 * Real.sin (2 * Real.pi * ((1 : ℕ) : ℝ) / ((4 : ℕ) : ℝ))) ∧
    (generate_offsets 4 1).sum = (0, 0) :=
  ⟨(c3_amended 4 1).1, (c3_amended 4 1).2.1 1 (by norm_num),
    (c3_amended 4 1).2.2 (by norm_num)⟩

/-- C10: the offset at index 0 is exactly `(2r, 0)` for every profile count
`n ≥ 1` — angle 0 gives `cos = 1`, `sin = 0`, and this holds exactly even
in IEEE arithmetic — and in particular a single profile's offset table is
`[(2r, 0)]`: its marker sits `2r` to the right of the point, not on it. -/
theorem c10_first_offset (n : ℕ) (r : ℝ) (h : 1 ≤ n) :
    (generate_offsets n r)[0]? = some (2 * r, 0) ∧
    generate_offsets 1 r = [(2 * r, 0)] := by
  constructor
  · unfold generate_offsets
    rw [List.getElem?_map, List.getElem?_range (by omega : 0 < n)]
    norm_num
    ring
  · unfold generate_offsets
    rw [show List.range 1 = [0] from rfl]
    norm_num
    ring

/-- C10 at a concrete input: with three profiles at the script's radius 10
the first profile's offset is exactly `(20, 0)`. -/
theorem c10_first_offset_witness :
    (generate_offsets 3 10)[0]? = some (2 * 10, 0) ∧
    generate_offsets 1 10 = [(2 * 10, 0)] :=
  c10_first_offset 3 10 (by norm_num)

/-- The offset table always has one entry per profile. -/
theorem generate_offsets_length (n : ℕ) (r : ℝ) : (generate_offsets n r).length = n := by
  unfold generate_offsets
  rw [List.length_map, List.length_range]

/-- With unique profile ids, the dict built in row order maps each id to
its own row's colour and name (last-wins lookup cannot pick another row). -/
theorem profiles_mapping_lookup (rows : List Profile)
    (hnd : (rows.map Profile.id).Nodup) (r : Profile) (hr : r ∈ rows) :
    profiles_mapping rows r.id = some (r.color, r.name) := by
  unfold profiles_mapping
  have hsome : (rows.reverse.find? fun q => q.id == r.id).isSome := by
    rw [List.find?_isSome]
    exact ⟨r, List.mem_reverse.mpr hr, by simp⟩
  obtain ⟨q, hq⟩ := Option.isSome_iff_exists.mp hsome
  have hqmem : q ∈ rows := List.mem_reverse.mp (List.mem_of_find?_eq_some hq)
  have hqid : q.id = r.id := by simpa using List.find?_some hq
  have hqr : q = r := List.inj_on_of_nodup_map hnd hqmem hr hqid
  rw [hq, hqr]
  rfl

/-- With unique profile ids, the offsets dict zipped from the profile list
returns the positionally matching entry of the offset table. -/
theorem offsets_get_lookup (rows : List Profile)
    (hnd : (rows.map Profile.id).Nodup) (i : ℕ) (hi : i < rows.length)
    (hio : i < (generate_offsets rows.length 10).length) :
    offsets_get rows ((rows.get ⟨i, hi⟩).id) =
      (generate_offsets rows.length 10).get ⟨i, hio⟩ := by
  unfold offsets_get
  have hidslen : (profiles_list rows).length = rows.length := by
    simp [profiles_list]
  have hzlen : ((profiles_list rows).zip (generate_offsets rows.length 10)).length
      = rows.length := by
    rw [List.length_zip, hidslen, generate_offsets_length, min_self]
  have hiz : i < ((profiles_list rows).zip (generate_offsets rows.length 10)).length := by
    omega
  have hmem : ((profiles_list rows).zip (generate_offsets rows.length 10)).get ⟨i, hiz⟩ ∈
      ((profiles_list rows).zip (generate_offsets rows.length 10)).reverse :=
    List.mem_reverse.mpr (List.get_mem _ _ hiz)
  have hzi : ((profiles_list rows).zip (generate_offsets rows.length 10)).get ⟨i, hiz⟩ =
      ((profiles_list rows).get ⟨i, by omega⟩,
       (generate_offsets rows.length 10).get ⟨i, hio⟩) := by
    simp [List.get_eq_getElem, List.getElem_zip]
  have hidi : (profiles_list rows).get ⟨i, by omega⟩ = (rows.get ⟨i, hi⟩).id := by
    simp [profiles_list, List.get_eq_getElem, List.getElem_map]
  have hpred : ((((profiles_list rows).zip (generate_offsets rows.length 10)).get
      ⟨i, hiz⟩).1 == (rows.get ⟨i, hi⟩).id) = true := by
    rw [hzi]
    simp [profiles_list]
  have hsome : (((profiles_list rows).zip (generate_offsets rows.length 10)).reverse.find?
      fun q => q.1 == (rows.get ⟨i, hi⟩).id).isSome := by
    rw [List.find?_isSome]
    exact ⟨_, hmem, hpred⟩
  obtain ⟨q, hq⟩ := Option.isSome_iff_exists.mp hsome
  have hqmem : q ∈ (profiles_list rows).zip (generate_offsets rows.length 10) :=
    List.mem_reverse.mp (List.mem_of_find?_eq_some hq)
  have hqpred : q.1 = (rows.get ⟨i, hi⟩).id := by
    simpa using List.find?_some hq
  obtain ⟨j, hj, hzj⟩ := List.mem_iff_getElem.mp hqmem
  have hj2 : j < (profiles_list rows).length := by omega
  have hmapnd : (profiles_list rows).Nodup := hnd
  have hIdj : (profiles_list rows)[j] = q.1 := by
    have := hzj
    rw [List.getElem_zip] at this
    rw [← this]
  have hIdeq : (profiles_list rows)[j] = (profiles_list rows)[i] := by
    rw [hIdj, hqpred]
    rw [← hidi]
    simp [List.get_eq_getElem]
  have hji : j = i := (List.Nodup.getElem_inj_iff hmapnd).mp hIdeq
  subst hji
  have hqe : q = ((profiles_list rows).zip (generate_offsets rows.length 10)).get ⟨j, hiz⟩ := by
    rw [List.get_eq_getElem, ← hzj]
  rw [hq]
  simp only [Option.map_some', Option.getD_some]
  rw [hqe, hzi]

/-- Walking any profile sublist whose dict lookups are already resolved
(`Forall₂`) turns the source's lookup-based marker loop into the
positional zip form. -/
theorem markers_bind_eq (rows : List Profile) (flags : String → Int) (x y : ℤ) :
    ∀ (sub : List Profile) (offs : List (ℝ × ℝ)),
      List.Forall₂ (fun r off =>
        profiles_mapping rows r.id = some (r.color, r.name) ∧
        offsets_get rows r.id = off) sub offs →
      ((sub.map Profile.id).flatMap fun p =>
        if flags p = 1 then
          match profiles_mapping rows p with
          | some info =>
            [MarkerElement.circle ((x : ℝ) + (offsets_get rows p).1)
               ((y : ℝ) + (offsets_get rows p).2) 10 info.1 info.1,
             MarkerElement.nameText ((x : ℝ) + (offsets_get rows p).1 + 10 + 5)
               ((y : ℝ) + (offsets_get rows p).2 + 20 / 2) 20 "black" info.2]
          | none => []
        else []) =
      ((sub.zip offs).flatMap fun q =>
        if flags q.1.id = 1 then
          [MarkerElement.circle ((x : ℝ) + q.2.1) ((y : ℝ) + q.2.2) 10 q.1.color q.1.color,
           MarkerElement.nameText ((x : ℝ) + q.2.1 + 10 + 5) ((y : ℝ) + q.2.2 + 20 / 2) 20
             "black" q.1.name]
        else []) := by
  intro sub offs hfa
  induction hfa with
  | nil => simp
  | @cons r off l1 l2 hr htail ih =>
    obtain ⟨hmap, hoff⟩ := hr
    simp only [List.map_cons, List.zip_cons_cons, List.flatMap_cons, ih]
    congr 1
    by_cases hf : flags r.id = 1
    · simp [hf, hmap, hoff]
    · simp [hf]

/-- The zip-form marker list has exactly two elements (circle and name) per
profile whose flag is exactly 1, and none for the others. -/
theorem markers_zip_length (flags : String → Int) (x y : ℤ) :
    ∀ (sub : List Profile) (offs : List (ℝ × ℝ)), sub.length = offs.length →
      (((sub.zip offs).flatMap fun q =>
        if flags q.1.id = 1 then
          [MarkerElement.circle ((x : ℝ) + q.2.1) ((y : ℝ) + q.2.2) 10 q.1.color q.1.color,
           MarkerElement.nameText ((x : ℝ) + q.2.1 + 10 + 5) ((y : ℝ) + q.2.2 + 20 / 2) 20
             "black" q.1.name]
        else []).length) =
      2 * ((sub.filter fun r => flags r.id == 1).length) := by
  intro sub
  induction sub with
  | nil =>
    intro offs h
    simp
  | cons r rs ih =>
    intro offs h
    match offs with
    | [] => simp at h
    | o :: os =>
      simp only [List.zip_cons_cons, List.flatMap_cons, List.length_append, List.filter_cons]
      rw [ih os (by simpa using h)]
      by_cases hf : flags r.id = 1
      · simp [hf]
        omega
      · simp [hf]

/-- C8: for a point whose position parses to an integer pair, and profile
rows with unique ids, the emitted markers are exactly the zip of the
profile rows with the radial offset table filtered to flag = 1: per active
profile one circle of radius 10 at `point + offset` and one name label at
`(marker_x + 10 + 5, marker_y + 20/2)` with font size 20, in profile
order, and nothing for any other flag value; the element count is twice
the number of profiles whose flag is exactly 1. -/
theorem c8_markers (rows : List Profile) (flags : String → Int) (x y : ℤ)
    (pos : Option PyLit) (hnd : (rows.map Profile.id).Nodup)
    (hpos : pos = some (PyLit.tuple [PyLit.int x, PyLit.int y])) :
    processPoint rows flags pos = .ok (pointMarkersSpec rows flags x y) ∧
    (pointMarkersSpec rows flags x y).length =
      2 * ((rows.filter fun r => flags r.id == 1).length) := by
  have hfa : List.Forall₂ (fun r off =>
      profiles_mapping rows r.id = some (r.color, r.name) ∧
      offsets_get rows r.id = off) rows (generate_offsets rows.length 10) := by
    rw [List.forall₂_iff_get]
    refine ⟨(generate_offsets_length _ _).symm, ?_⟩
    intro i h1 h2
    constructor
    · exact profiles_mapping_lookup rows hnd (rows.get ⟨i, h1⟩) (List.get_mem _ _ _)
    · exact offsets_get_lookup rows hnd i h1 h2
  have heq := markers_bind_eq rows flags x y rows (generate_offsets rows.length 10) hfa
  constructor
  · rw [hpos]
    show Except.ok (processPointMarkers rows flags x y) = _
    unfold processPointMarkers pointMarkersSpec profiles_list
    exact congrArg Except.ok heq
  · unfold pointMarkersSpec
    exact markers_zip_length flags x y rows (generate_offsets rows.length 10)
      (generate_offsets_length _ _).symm

/-- Concrete three-profile table for the marker-activation example. -/
def rowsABC : List Profile :=
  [⟨"A", "rgb(255, 0, 0)", "Alpha"⟩, ⟨"B", "rgb(0, 255, 0)", "Beta"⟩,
   ⟨"C", "rgb(0, 0, 255)", "Gamma"⟩]

/-- Flags `{A: 1, B: 0, C: 1}` of the marker-activation example. -/
def flagsABC : String → Int :=
  fun p => if p == "A" || p == "C" then 1 else 0

/-- C8 at the spec's example: profiles `[A, B, C]` with flags
`{A: 1, B: 0, C: 1}` at point `(5, 7)` yield the zip-form marker list,
with exactly `2 · 2` elements — the two active profiles' circle/name
pairs, at offset positions 0 and 2 of the 3-way radial split. -/
theorem c8_markers_witness :
    (rowsABC.map Profile.id).Nodup ∧
    processPoint rowsABC flagsABC (some (PyLit.tuple [PyLit.int 5, PyLit.int 7])) =
      .ok (pointMarkersSpec rowsABC flagsABC 5 7) ∧
    (pointMarkersSpec rowsABC flagsABC 5 7).length =
      2 * ((rowsABC.filter fun r => flagsABC r.id == 1).length) :=
  ⟨by decide,
    (c8_markers rowsABC flagsABC 5 7 (some (PyLit.tuple [PyLit.int 5, PyLit.int 7]))
      (by decide) rfl).1,
    (c8_markers rowsABC flagsABC 5 7 (some (PyLit.tuple [PyLit.int 5, PyLit.int 7]))
      (by decide) rfl).2⟩
